import Mathlib

/-!
Verification of the go-pb paste service against its specification.

The development shallowly embeds the paste lifecycle code of
`src/api/paste/sqldb/sqldb.go` and `src/api/http/http.go`:

* Go `time.Time` instants are modelled on a UTC timeline of integer
  nanoseconds whose zero is the zero `time.Time` (January 1 of year 1,
  00:00:00 UTC).  A wall-clock instant, as produced by `time.Now()`, is
  represented by its civil decomposition (`Civil`); `Civil.toAbs` maps it
  to the timeline using the proleptic Gregorian calendar exactly as Go's
  `time.Date` does (months are normalised Euclideanly into years, the day
  is a plain day offset from the first of the month).  Daylight-saving
  shifts and the `int64` wrap of Go's internal date pipeline (reachable
  only beyond roughly 10^11 years) are outside the model; theorems about
  calendar addition therefore carry explicit magnitude bounds that keep
  the computation inside the faithful region.  The one `int64` overflow
  that is reachable with realistic inputs - the `time.Duration`
  multiplication `time.Duration(dur) * time.Minute` - is modelled exactly
  by `wrapInt64`.
* Go strings that the code slices byte-wise (the expiration expression,
  the base62 id parameter) are modelled as lists of byte values; strings
  that are only stored or compared with `""` stay Lean `String`s.
* The database is a list of rows; `gorm` primary-key lookup, insert with
  a unique-key violation, and delete-by-key are modelled on it.  The
  model assumes a healthy connection: the connectivity error paths of the
  Go code are not represented.
-/

/-- Leap-year test, byte for byte the Go condition
`year%4 == 0 && (year%100 != 0 || year%400 == 0)` (sign conventions do not
matter because only comparison with zero is used). -/
def isLeap (y : Int) : Bool :=
  y % 4 == 0 && (y % 100 != 0 || y % 400 == 0)

/-- Cumulative days before month `m` (1-based) in a non-leap year, Go's
`daysBefore` array; `m = 13` yields 365. -/
def daysBefore (m : Int) : Int :=
  if m ≤ 1 then 0
  else if m = 2 then 31
  else if m = 3 then 59
  else if m = 4 then 90
  else if m = 5 then 120
  else if m = 6 then 151
  else if m = 7 then 181
  else if m = 8 then 212
  else if m = 9 then 243
  else if m = 10 then 273
  else if m = 11 then 304
  else if m = 12 then 334
  else 365

/-- Extra day counted after February in a leap year, Go's
`if isLeap(year) && month >= March { d++ }`. -/
def leapAdj (y m : Int) : Int :=
  if 3 ≤ m ∧ isLeap y = true then 1 else 0

/-- Days from January 1 of year 1 to January 1 of year `y` in the
proleptic Gregorian calendar.  Equals Go's `daysSinceEpoch` up to the
constant offset of the epoch (Go shifts the year by a multiple of 400
before dividing, so its truncated divisions coincide with these floored
ones). -/
def daysToYear (y : Int) : Int :=
  365 * (y - 1) + (y - 1) / 4 - (y - 1) / 100 + (y - 1) / 400

/-- Day number of the first day of linear month `k`, where month `m` of
year `y` has `k = 12*y + (m - 1)`.  Euclidean division recovers exactly
Go's `norm(year, month, 12)` normalisation. -/
def monthsToDays (k : Int) : Int :=
  daysToYear (k / 12) + daysBefore (k % 12 + 1) + leapAdj (k / 12) (k % 12 + 1)

/-- Day number (day 0 = January 1 of year 1) of the civil date `y-m-d`;
`m` and `d` may be out of range, they act as offsets exactly as in Go's
`time.Date`. -/
def daysFromCivil (y m d : Int) : Int :=
  monthsToDays (12 * y + m - 1) + (d - 1)

def nsPerMin : Int := 60000000000

def nsPerHour : Int := 3600000000000

def nsPerDay : Int := 86400000000000

/-- Wall-clock instant as observed through `Date()`: civil date plus
nanoseconds of the day.  This is the representation of a `time.Time`
produced by `time.Now()`. -/
structure Civil where
  year : Int
  month : Int
  day : Int
  nsOfDay : Int
deriving DecidableEq

/-- Days in month `m` of year `y` (for `m` in 1..12). -/
def daysInMonth (y m : Int) : Int :=
  daysBefore (m + 1) - daysBefore m + (if m = 2 ∧ isLeap y = true then 1 else 0)

/-- The civil components are in canonical range, as `Date()` guarantees. -/
def Civil.normalized (c : Civil) : Prop :=
  1 ≤ c.month ∧ c.month ≤ 12 ∧ 1 ≤ c.day ∧ c.day ≤ daysInMonth c.year c.month ∧
    0 ≤ c.nsOfDay ∧ c.nsOfDay < nsPerDay

/-- The range conditions of `Civil.normalized` are decidable. -/
instance (c : Civil) : Decidable c.normalized := by
  unfold Civil.normalized
  infer_instance

/-- Absolute nanoseconds of the instant on the UTC timeline. -/
def Civil.toAbs (c : Civil) : Int :=
  daysFromCivil c.year c.month c.day * nsPerDay + c.nsOfDay

/-- Go `t.AddDate(years, months, days)`: re-build the date from the civil
components shifted by the three offsets, keeping the time of day. -/
def goAddDate (c : Civil) (years months days : Int) : Int :=
  (monthsToDays (12 * (c.year + years) + (c.month + months) - 1) +
    (c.day + days - 1)) * nsPerDay + c.nsOfDay

/-- Two's-complement wrap to `int64`, the behaviour of Go arithmetic on
`time.Duration` values. -/
def wrapInt64 (v : Int) : Int :=
  (v + 2 ^ 63) % 2 ^ 64 - 2 ^ 63

/-- Byte values of the literal `"never"`. -/
def neverBytes : List Nat := [110, 101, 118, 101, 114]

/-- Go `strconv.Atoi` on a byte string: optional single sign, at least one
digit, all digits, value within `int64`; any other input (including
overflow) makes `Atoi` return a non-nil error, modelled as `none`. -/
def goAtoi (s : List Nat) : Option Int :=
  let digits := if s.headD 0 = 45 ∨ s.headD 0 = 43 then s.tail else s
  if digits = [] then none
  else if digits.all (fun c => decide (48 ≤ c ∧ c ≤ 57)) then
    let n : Nat := digits.foldl (fun a c => a * 10 + (c - 48)) 0
    if s.headD 0 = 45 then
      if n ≤ 2 ^ 63 then some (-(n : Int)) else none
    else
      if n < 2 ^ 63 then some ((n : Int)) else none
  else none

/-- Unit bytes accepted by the `switch` in `PasteService.Create`:
`m h d w M y`. -/
def unitBytes : List Nat := [109, 104, 100, 119, 77, 121]

/-- Expiration computation of `PasteService.Create` (sqldb.go:82-107) for
creation instant `created`: the zero instant (`0`, never) by default, a
computed instant for expressions that enter the parsing branch, `none`
where the Go code returns an error.  The byte string enters the branch
only when it differs from `"never"` and is at least two bytes long; the
magnitude is everything but the last byte, the unit is the last byte.
The `time.Duration` products wrap at `int64` exactly as in Go. -/
def computeExpires (e : List Nat) (created : Civil) : Option Int :=
  if e ≠ neverBytes ∧ 1 < e.length then
    match goAtoi e.dropLast with
    | none => none
    | some dur =>
      if e.getLastD 0 = 109 then some (created.toAbs + wrapInt64 (dur * nsPerMin))
      else if e.getLastD 0 = 104 then some (created.toAbs + wrapInt64 (dur * nsPerHour))
      else if e.getLastD 0 = 100 then some (goAddDate created 0 0 dur)
      else if e.getLastD 0 = 119 then some (goAddDate created 0 0 (wrapInt64 (dur * 7)))
      else if e.getLastD 0 = 77 then some (goAddDate created 0 dur 0)
      else if e.getLastD 0 = 121 then some (goAddDate created dur 0 0)
      else none
  else some 0

/-- Stored paste row, the fields of `api.Paste` as used by sqldb.go and
http.go (`Syntax` is spelled `syntaxLang` because `syntax` is reserved in
Lean; the joined `User` relation carries no information used by the code
under verification and is not modelled).  `expires` and `created` are
instants on the absolute timeline; `expires = 0` is the zero `time.Time`,
the "never" sentinel.  `userID = 0` models the omitted / NULL owner
column. -/
structure Paste where
  id : Int
  title : String
  body : String
  expires : Int
  deleteAfterRead : Bool
  privacy : String
  password : String
  created : Int
  syntaxLang : String
  userID : Int
deriving DecidableEq

/-- Creation form, the fields of `api.PasteForm` read by
`PasteService.Create`; the expiration expression is kept as Go bytes. -/
structure PasteForm where
  title : String
  body : String
  expires : List Nat
  deleteAfterRead : Bool
  privacy : String
  password : String
  syntaxLang : String
  userID : Int
deriving DecidableEq

/-- Database errors surfaced by gorm that the code can hit: a primary-key
collision on insert. -/
inductive DbErr where
  | duplicateKey : DbErr
deriving DecidableEq

/-- Errors of `PasteService.Create`: the expiration-format error or a
propagated database error. -/
inductive CreateErr where
  | formatErr : CreateErr
  | dbErr : DbErr → CreateErr
deriving DecidableEq

/-- gorm `db.Create(&newPaste)`: inserting a row whose primary key is
already present fails with a unique-constraint error, otherwise the row
is appended. -/
def dbInsert (db : List Paste) (p : Paste) : Except DbErr (List Paste) :=
  if db.any (fun q => q.id == p.id) then .error .duplicateKey
  else .ok (db ++ [p])

/-- `PasteService.Get` (sqldb.go:59-73) on a healthy connection:
primary-key lookup, `none` when no row matches (`gorm.ErrRecordNotFound`
becomes `paste == nil, err == nil`).  No expiration and no password enter
the query. -/
def sqldbGet (db : List Paste) (id : Int) : Option Paste :=
  db.find? (fun p => p.id == id)

/-- `PasteService.Delete` (sqldb.go:142-144): gorm delete by primary key;
the error is nil whether or not rows matched, so the error component is
constantly `none`. -/
def sqldbDelete (db : List Paste) (id : Int) : Option DbErr × List Paste :=
  (none, db.filter (fun p => !(p.id == id)))

/-- `PasteService.Create` (sqldb.go:77-139): compute the expiration
(propagating the format error), bcrypt-hash a non-empty password (`bh` is
the hash function; bcrypt is salted, so it is a parameter, and with the
pinned x/crypto version it cannot fail at the default cost), build the
row with the id drawn from the shared generator (`randId`), insert, and
propagate any insert error to the caller. -/
def pasteCreate (form : PasteForm) (created : Civil) (randId : Int)
    (bh : String → String) (db : List Paste) :
    Except CreateErr (Paste × List Paste) :=
  match computeExpires form.expires created with
  | none => .error .formatErr
  | some exp =>
    let pw := if form.password ≠ "" then bh form.password else form.password
    let p : Paste :=
      { id := randId, title := form.title, body := form.body, expires := exp,
        deleteAfterRead := form.deleteAfterRead, privacy := form.privacy,
        password := pw, created := created.toAbs,
        syntaxLang := form.syntaxLang, userID := form.userID }
    match dbInsert db p with
    | .error e => .error (.dbErr e)
    | .ok db2 => .ok (p, db2)

/-- Modelled from the spec: the `base62` package is not under src (only its
caller http.go is).  Spec 4.1: value of one symbol of the fixed radix-62
alphabet - digits, then lowercase, then uppercase. -/
def b62Digit (c : Nat) : Option Nat :=
  if 48 ≤ c ∧ c ≤ 57 then some (c - 48)
  else if 97 ≤ c ∧ c ≤ 122 then some (c - 97 + 10)
  else if 65 ≤ c ∧ c ≤ 90 then some (c - 65 + 36)
  else none

/-- Modelled from the spec: `base62.Decode` fails on any byte outside the
62-symbol alphabet or on overflow beyond the 63-bit range (spec 4.1). -/
def base62Decode (s : List Nat) : Option Nat :=
  s.foldl
    (fun acc c =>
      match acc, b62Digit c with
      | some a, some d => if a * 62 + d < 2 ^ 63 then some (a * 62 + d) else none
      | _, _ => none)
    (some 0)

/-- Outcome of `GET /paste/{id}` as the client sees it: 404 or the paste
serialised with status 200. -/
inductive ReadResp where
  | notFound : ReadResp
  | ok : Paste → ReadResp
deriving DecidableEq

/-- Apply a row transformation to the paste inside a response. -/
def respMap (g : Paste → Paste) : ReadResp → ReadResp
  | .notFound => .notFound
  | .ok p => .ok (g p)

/-- `ApiServer.handlePaste` (http.go:69-92): decode the base62 id (404 on
failure), look the paste up (404 when the service reports it missing -
the `api.PasteService` interface itself is not under src, so the lookup
is the sqldb store fetch with a missing row surfaced as the error the
handler expects), answer 200 with the paste, and delete it afterwards
when `DeleteAfterRead` is set.  The response carries no password check of
any kind.  The result is the response paired with the database after the
burn side effect. -/
def handlePaste (db : List Paste) (param : List Nat) : ReadResp × List Paste :=
  match base62Decode param with
  | none => (.notFound, db)
  | some n =>
    match sqldbGet db (n : Int) with
    | none => (.notFound, db)
    | some p => (.ok p, if p.deleteAfterRead then (sqldbDelete db p.id).2 else db)

/-- Paste built by `ApiServer.handleCreate` (http.go:201-211) from the
decoded request body `data`, the value `r` drawn from the freshly seeded
generator (`rand.Uint64()`, so any value below `2^64`), and the current
instant: only `Title`, `Body`, `DeleteAfterRead` and `Syntax` are copied
from the request; `Expires` is the zero time and the omitted `Privacy`,
`Password` and `UserID` fields get their Go zero values. -/
def handleCreatePaste (data : Paste) (r : Nat) (now : Int) : Paste :=
  { id := (r : Int), title := data.title, body := data.body, expires := 0,
    deleteAfterRead := data.deleteAfterRead, privacy := "", password := "",
    created := now, syntaxLang := data.syntaxLang, userID := 0 }

/-- The id draw of `handleCreate` (http.go:202-204): `rand.Seed(ts)`
followed by `rand.Uint64()` on the shared generator.  `seedFn` and `next`
are the (deterministic) seeding and stepping functions of `math/rand`;
`pre` is whatever state the shared generator held before the request -
`Seed` overwrites it, which is exactly what the definition expresses. -/
def globalRandDraw {S : Type} (seedFn : Int → S) (next : S → Nat × S)
    (pre : S) (ts : Int) : Nat × S :=
  next (seedFn ts)

/-- Every civil month has at least 28 days: the start of the next linear
month is at least 28 days later. -/
theorem monthsToDays_succ_le (k : Int) :
    monthsToDays k + 28 ≤ monthsToDays (k + 1) := by
  by_cases h : k % 12 = 11
  · have h1 : (k + 1) / 12 = k / 12 + 1 := by omega
    have h2 : (k + 1) % 12 = 0 := by omega
    unfold monthsToDays
    rw [h1, h2, h]
    by_cases hL : isLeap (k / 12) = true
    · simp only [daysBefore, leapAdj, hL]
      norm_num
      unfold daysToYear
      have h4 : (k / 12 - 1) / 4 ≤ k / 12 / 4 := by omega
      have h100 : k / 12 / 100 ≤ (k / 12 - 1) / 100 + 1 := by omega
      have h400 : (k / 12 - 1) / 400 ≤ k / 12 / 400 := by omega
      unfold isLeap at hL
      simp only [Bool.and_eq_true, Bool.or_eq_true, beq_iff_eq, bne_iff_ne] at hL
      omega
    · simp only [daysBefore, leapAdj, hL]
      norm_num
      unfold daysToYear
      omega
  · have h1 : (k + 1) / 12 = k / 12 := by omega
    have h2 : (k + 1) % 12 = k % 12 + 1 := by omega
    unfold monthsToDays
    rw [h1, h2]
    have hr : 0 ≤ k % 12 ∧ k % 12 ≤ 10 := by omega
    by_cases hL : isLeap (k / 12) = true <;>
      [skip; skip] <;>
    · obtain ⟨hr0, hr1⟩ := hr
      generalize hg : k % 12 = r at hr0 hr1
      interval_cases r <;>
        simp only [daysBefore, leapAdj, hL] <;> norm_num <;> omega

/-- Iterated form: `n` months ahead lies at least `28 n` days ahead. -/
theorem monthsToDays_add_le (k : Int) (n : Nat) :
    monthsToDays k + 28 * n ≤ monthsToDays (k + n) := by
  induction n with
  | zero => simp
  | succ m ih =>
    have h := monthsToDays_succ_le (k + m)
    have he : k + ((m : Int) + 1) = k + m + 1 := by ring
    push_cast
    rw [he]
    push_cast at ih
    omega

/-- Integer form of `monthsToDays_add_le` for a non-negative shift. -/
theorem monthsToDays_le_add (k j : Int) (hj : 0 ≤ j) :
    monthsToDays k + 28 * j ≤ monthsToDays (k + j) := by
  have h := monthsToDays_add_le k j.toNat
  rw [Int.toNat_of_nonneg hj] at h
  exact h

/-- January of year 1 is day 0. -/
theorem monthsToDays_twelve : monthsToDays 12 = 0 := by decide

/-- From year 1 on, day numbers are non-negative. -/
theorem monthsToDays_nonneg (k : Int) (h : 12 ≤ k) : 0 ≤ monthsToDays k := by
  have h2 := monthsToDays_le_add 12 (k - 12) (by omega)
  have he : (12 : Int) + (k - 12) = k := by ring
  rw [he, monthsToDays_twelve] at h2
  omega

/-- Instants of normalized civil dates from year 1 on are non-negative. -/
theorem Civil.toAbs_nonneg (c : Civil) (hn : c.normalized) (hy : 1 ≤ c.year) :
    0 ≤ c.toAbs := by
  obtain ⟨hm1, hm2, hd1, _, hns1, _⟩ := hn
  unfold Civil.toAbs daysFromCivil nsPerDay
  have hk : 12 ≤ 12 * c.year + c.month - 1 := by omega
  have h0 := monthsToDays_nonneg _ hk
  nlinarith

/-- Adding days through `AddDate` is an exact day-length shift. -/
theorem goAddDate_days (c : Civil) (j : Int) :
    goAddDate c 0 0 j = c.toAbs + j * nsPerDay := by
  unfold goAddDate Civil.toAbs daysFromCivil
  have he : 12 * (c.year + 0) + (c.month + 0) - 1 = 12 * c.year + c.month - 1 := by ring
  rw [he]
  ring

/-- Adding `mo ≥ 0` months through `AddDate` moves the instant at least
`28 mo` days forward. -/
theorem goAddDate_months (c : Civil) (mo : Int) (hmo : 0 ≤ mo) :
    c.toAbs + 28 * mo * nsPerDay ≤ goAddDate c 0 mo 0 := by
  unfold goAddDate Civil.toAbs daysFromCivil
  have he : 12 * (c.year + 0) + (c.month + mo) - 1 =
      (12 * c.year + c.month - 1) + mo := by ring
  rw [he]
  have h := monthsToDays_le_add (12 * c.year + c.month - 1) mo hmo
  unfold nsPerDay
  nlinarith

/-- Adding `yr ≥ 0` years through `AddDate` moves the instant at least
`336 yr` days forward. -/
theorem goAddDate_years (c : Civil) (yr : Int) (hyr : 0 ≤ yr) :
    c.toAbs + 336 * yr * nsPerDay ≤ goAddDate c yr 0 0 := by
  unfold goAddDate Civil.toAbs daysFromCivil
  have he : 12 * (c.year + yr) + (c.month + 0) - 1 =
      (12 * c.year + c.month - 1) + 12 * yr := by ring
  rw [he]
  have h := monthsToDays_le_add (12 * c.year + c.month - 1) (12 * yr) (by omega)
  unfold nsPerDay
  nlinarith

/-- Values already in `int64` range are fixed by the wrap. -/
theorem wrapInt64_id (v : Int) (h1 : -(2 ^ 63) ≤ v) (h2 : v < 2 ^ 63) :
    wrapInt64 v = v := by
  unfold wrapInt64
  omega

/-- Primary-key lookup commutes with any row transformation that keeps
the key. -/
theorem sqldbGet_map_keep_id (db : List Paste) (id : Int) (g : Paste → Paste)
    (hg : ∀ p, (g p).id = p.id) :
    sqldbGet (db.map g) id = (sqldbGet db id).map g := by
  induction db with
  | nil => rfl
  | cons p rest ih =>
    unfold sqldbGet at ih ⊢
    simp only [List.map_cons, List.find?_cons, hg p]
    by_cases h : (p.id == id) = true
    · simp [h]
    · simp only [Bool.not_eq_true] at h
      simp [h, ih]

/-- Delete-by-key commutes with any row transformation that keeps the
key. -/
theorem filter_ne_map_keep_id (db : List Paste) (id : Int) (g : Paste → Paste)
    (hg : ∀ p, (g p).id = p.id) :
    (db.map g).filter (fun p => !(p.id == id)) =
      (db.filter (fun p => !(p.id == id))).map g := by
  induction db with
  | nil => rfl
  | cons p rest ih =>
    simp only [List.map_cons, List.filter_cons, hg p]
    by_cases h : (p.id == id) = true
    · simp [h, ih]
    · simp only [Bool.not_eq_true] at h
      simp [h, ih]

/-- Sample stored row used by the concrete counterexamples. -/
def samplePaste : Paste :=
  { id := 42, title := "hello", body := "world", expires := 0,
    deleteAfterRead := false, privacy := "", password := "", created := 0,
    syntaxLang := "", userID := 0 }

/-- Claim C1 is false on the code: a paste whose expiration instant (5 ns
past the zero time, year 1) lies far before any present fetch instant
(the bound shown is a 2023 timestamp) is still returned by
`PasteService.Get` as long as its row exists, not treated like the
missing row of the last conjunct.  The query in sqldb.go:64 never touches
`expires`. -/
theorem c1_expired_paste_still_returned :
    sqldbGet [{ samplePaste with expires := 5 }] 42 =
      some { samplePaste with expires := 5 } ∧
    ({ samplePaste with expires := 5 } : Paste).expires ≠ 0 ∧
    ({ samplePaste with expires := 5 } : Paste).expires < 63808000000000000000 ∧
    sqldbGet ([] : List Paste) 42 = none :=
  ⟨rfl, by decide, by decide, rfl⟩

/-- Claim C1 amended: fetching by id returns exactly the stored row
whenever it exists, whatever its expiration instant is - expiration never
influences the outcome of `Get`.  Formally, rewriting the `expires`
column of every row in any way commutes with the fetch. -/
theorem c1_get_ignores_expiration (db : List Paste) (id : Int)
    (f : Paste → Int) :
    sqldbGet (db.map fun p => { p with expires := f p }) id =
      (sqldbGet db id).map fun p => { p with expires := f p } :=
  sqldbGet_map_keep_id db id _ (fun _ => rfl)

/-- Claim C2 is false on the code: a paste with a non-empty stored
password hash is served with HTTP 200 by `handlePaste` (byte 71 is `"G"`,
base62 for 42) although the request carries no password at all - the
handler has no password parameter and performs no verification. -/
theorem c2_passworded_paste_served_without_check :
    handlePaste [{ samplePaste with password := "bcrypt-hash" }] [71] =
      (.ok { samplePaste with password := "bcrypt-hash" },
        [{ samplePaste with password := "bcrypt-hash" }]) ∧
    ({ samplePaste with password := "bcrypt-hash" } : Paste).password ≠ "" :=
  ⟨rfl, by decide⟩

/-- Claim C2 amended: the read path never checks the password; the
response and the burn side effect are unchanged under any rewriting of
the `password` column, so reading with no (or any) supplied password
succeeds whenever the row exists. -/
theorem c2_read_ignores_password (db : List Paste) (param : List Nat)
    (f : Paste → String) :
    handlePaste (db.map fun p => { p with password := f p }) param =
      (respMap (fun p => { p with password := f p }) (handlePaste db param).1,
        (handlePaste db param).2.map fun p => { p with password := f p }) := by
  unfold handlePaste
  cases hdec : base62Decode param with
  | none => simp [respMap]
  | some n =>
    dsimp only
    rw [sqldbGet_map_keep_id db (n : Int)
      (fun p => { p with password := f p }) (fun _ => rfl)]
    cases hget : sqldbGet db (n : Int) with
    | none => simp [respMap]
    | some p =>
      unfold sqldbDelete
      simp only [Option.map_some', respMap]
      by_cases hb : p.deleteAfterRead = true
      · simp only [hb, if_true]
        rw [filter_ne_map_keep_id db p.id
          (fun q => { q with password := f q }) (fun _ => rfl)]
      · simp only [Bool.not_eq_true] at hb
        simp [hb]

/-- Claim C7 is false on the code: deleting from an empty store (no paste
with id 1 exists, second conjunct) reports no error at all - gorm's
delete returns a nil error when zero rows match, so there is no NotFound
outcome. -/
theorem c7_delete_missing_no_error :
    (sqldbDelete ([] : List Paste) 1).1 = none ∧
    sqldbGet ([] : List Paste) 1 = none :=
  ⟨rfl, rfl⟩

/-- Claim C7 amended: `Delete` always succeeds (the error component is
nil whether or not the row exists), removes every row with the given id,
and repeating it is idempotent. -/
theorem c7_delete_idempotent_never_notfound (db : List Paste) (id : Int) :
    (sqldbDelete db id).1 = none ∧
    (sqldbDelete (sqldbDelete db id).2 id).2 = (sqldbDelete db id).2 ∧
    (sqldbDelete db id).2.filter (fun p => p.id == id) = [] := by
  refine ⟨rfl, ?_, ?_⟩
  · unfold sqldbDelete
    simp [List.filter_filter]
  · unfold sqldbDelete
    simp [List.filter_filter]

/-- Sample creation form used by the concrete counterexamples. -/
def sampleForm : PasteForm :=
  { title := "hello", body := "world", expires := neverBytes,
    deleteAfterRead := false, privacy := "", password := "",
    syntaxLang := "", userID := 0 }

/-- Sample creation instant: January 1 2021, midnight UTC. -/
def sampleCivil : Civil := ⟨2021, 1, 1, 0⟩

/-- Shape of a successful `Create`: the stored row carries the drawn id
and the form fields, and is appended to the store. -/
theorem pasteCreate_ok_shape (form : PasteForm) (c : Civil) (r : Int)
    (bh : String → String) (db : List Paste) (p : Paste) (db2 : List Paste)
    (hok : pasteCreate form c r bh db = .ok (p, db2)) :
    p.id = r ∧ p.title = form.title ∧ p.body = form.body ∧ db2 = db ++ [p] := by
  unfold pasteCreate at hok
  cases hx : computeExpires form.expires c with
  | none => rw [hx] at hok; exact absurd hok (by simp)
  | some x =>
    rw [hx] at hok
    dsimp only at hok
    unfold dbInsert at hok
    by_cases hdup : db.any (fun q => q.id == r) = true
    · simp [hdup] at hok
    · simp only [Bool.not_eq_true] at hdup
      simp only [hdup, Bool.false_eq_true, if_false, Except.ok.injEq,
        Prod.mk.injEq] at hok
      obtain ⟨hp, hdb⟩ := hok
      subst hp
      exact ⟨rfl, rfl, rfl, hdb.symm⟩

/-- A `Create` whose expiration expression is accepted and whose drawn id
is fresh succeeds and appends exactly the row built from the form. -/
theorem pasteCreate_ok_of (form : PasteForm) (c : Civil) (r : Int)
    (bh : String → String) (db : List Paste) (x : Int)
    (hx : computeExpires form.expires c = some x)
    (hfresh : db.any (fun q => q.id == r) = false) :
    pasteCreate form c r bh db =
      .ok ({ id := r, title := form.title, body := form.body, expires := x,
             deleteAfterRead := form.deleteAfterRead, privacy := form.privacy,
             password := (if form.password ≠ "" then bh form.password
               else form.password),
             created := c.toAbs, syntaxLang := form.syntaxLang,
             userID := form.userID },
        db ++ [{ id := r, title := form.title, body := form.body, expires := x,
                 deleteAfterRead := form.deleteAfterRead,
                 privacy := form.privacy,
                 password := (if form.password ≠ "" then bh form.password
                   else form.password),
                 created := c.toAbs, syntaxLang := form.syntaxLang,
                 userID := form.userID }]) := by
  unfold pasteCreate
  rw [hx]
  dsimp only
  unfold dbInsert
  simp [hfresh]

/-- Claim C3 is false on the code: `Create` draws one id, inserts once,
and hands the duplicate-key failure straight back to its caller - here a
create that draws the id 42 already present in the store.  There is no
retry loop and no IdentifierExhausted in sqldb.go:116-138. -/
theorem c3_duplicate_error_surfaces :
    pasteCreate sampleForm sampleCivil 42 id [samplePaste] =
      .error (.dbErr .duplicateKey) := by
  rfl

/-- Claim C3 amended: whenever the expiration expression is accepted and
the drawn id collides with a stored row, `Create` fails immediately with
the propagated duplicate-key error - the collision is never retried and
surfaces to the caller. -/
theorem c3_create_propagates_duplicate (form : PasteForm) (c : Civil)
    (r : Int) (bh : String → String) (db : List Paste) (x : Int)
    (hx : computeExpires form.expires c = some x)
    (hdup : db.any (fun q => q.id == r) = true) :
    pasteCreate form c r bh db = .error (.dbErr .duplicateKey) := by
  unfold pasteCreate
  rw [hx]
  dsimp only
  unfold dbInsert
  simp [hdup]

/-- Concrete instantiation of the amended claim C3 theorem. -/
theorem c3_create_propagates_duplicate_witness :
    computeExpires sampleForm.expires sampleCivil = some 0 ∧
    ([samplePaste].any (fun q => q.id == (42 : Int))) = true ∧
    pasteCreate sampleForm sampleCivil 42 id [samplePaste] =
      .error (.dbErr .duplicateKey) :=
  ⟨by decide, by decide,
    c3_create_propagates_duplicate sampleForm sampleCivil 42 id [samplePaste] 0
      (by decide) (by decide)⟩

/-- Claim C6 is false on the code: the id path of `handleCreate` draws
`rand.Uint64()`, whose range includes `2^63` (second conjunct), and
stores it unchanged, producing an id not representable as a 63-bit
non-negative integer (third conjunct). -/
theorem c6_handle_create_id_beyond_63_bits :
    (handleCreatePaste samplePaste (2 ^ 63) 0).id = 2 ^ 63 ∧
    (2 : Nat) ^ 63 < 2 ^ 64 ∧
    ¬ ((2 : Int) ^ 63 < 2 ^ 63) :=
  ⟨by norm_num [handleCreatePaste], by norm_num, by norm_num⟩

/-- Claim C6 amended: the sqldb `Create` path stores the `rand.Int63()`
draw unchanged, so with that generator's range (`0 ≤ r < 2^63`) every id
it assigns is a 63-bit non-negative integer; the HTTP `handleCreate`
path, by contrast, draws from the full unsigned 64-bit space (see the
counterexample). -/
theorem c6_sqldb_create_id_63_bits (form : PasteForm) (c : Civil) (r : Int)
    (bh : String → String) (db : List Paste) (p : Paste) (db2 : List Paste)
    (h0 : 0 ≤ r) (h1 : r < 2 ^ 63)
    (hok : pasteCreate form c r bh db = .ok (p, db2)) :
    0 ≤ p.id ∧ p.id < 2 ^ 63 := by
  have h := pasteCreate_ok_shape form c r bh db p db2 hok
  omega

/-- Row produced by a successful sample create with id 7. -/
def sampleRow7 : Paste :=
  { id := 7, title := "hello", body := "world", expires := 0,
    deleteAfterRead := false, privacy := "", password := "",
    created := sampleCivil.toAbs, syntaxLang := "", userID := 0 }

/-- Concrete instantiation of the amended claim C6 theorem. -/
theorem c6_sqldb_create_id_63_bits_witness :
    (0 : Int) ≤ 7 ∧ (7 : Int) < 2 ^ 63 ∧
    0 ≤ sampleRow7.id ∧ sampleRow7.id < 2 ^ 63 :=
  have h := c6_sqldb_create_id_63_bits sampleForm sampleCivil 7 id []
    sampleRow7 [sampleRow7] (by norm_num) (by norm_num) (by rfl)
  ⟨by norm_num, by norm_num, h.1, h.2⟩

/-- Row stored by the C8 counterexample create: both title and body
empty. -/
def emptyRow7 : Paste :=
  { id := 7, title := "", body := "", expires := 0, deleteAfterRead := false,
    privacy := "", password := "", created := sampleCivil.toAbs,
    syntaxLang := "", userID := 0 }

/-- Claim C8 is false on the code: a form whose title and body are both
empty is accepted by `Create` and stored - sqldb.go:77-139 contains no
title/body validation of any kind. -/
theorem c8_empty_title_and_body_accepted :
    pasteCreate { sampleForm with title := "", body := "" } sampleCivil 7 id
      [] = .ok (emptyRow7, [emptyRow7]) ∧
    emptyRow7.title = "" ∧ emptyRow7.body = "" :=
  ⟨rfl, rfl, rfl⟩

/-- Claim C8 amended: `Create` performs no title/body validation; a form
with empty title and empty body is stored like any other whenever the
expiration expression is accepted and the drawn id is fresh. -/
theorem c8_create_skips_title_body_validation (c : Civil) (r : Int)
    (bh : String → String) (db : List Paste) (form : PasteForm) (x : Int)
    (ht : form.title = "") (hb : form.body = "")
    (hx : computeExpires form.expires c = some x)
    (hfresh : db.any (fun q => q.id == r) = false) :
    ∃ p db2, pasteCreate form c r bh db = .ok (p, db2) ∧
      p.title = "" ∧ p.body = "" ∧ db2 = db ++ [p] := by
  refine ⟨_, _, pasteCreate_ok_of form c r bh db x hx hfresh, ?_, ?_, rfl⟩
  · exact ht
  · exact hb

/-- Concrete instantiation of the amended claim C8 theorem. -/
theorem c8_create_skips_title_body_validation_witness :
    ∃ p db2,
      pasteCreate { sampleForm with title := "", body := "" } sampleCivil 3
        id [samplePaste] = .ok (p, db2) ∧
      p.title = "" ∧ p.body = "" ∧ db2 = [samplePaste] ++ [p] :=
  c8_create_skips_title_body_validation sampleCivil 3 id [samplePaste]
    { sampleForm with title := "", body := "" } 0 rfl rfl (by decide)
    (by decide)

/-- Claim C9 confirmed: the paste stored by the accepted `POST /paste`
request is built from the whitelist title/body/deleteAfterRead/syntax
alone; `Expires` is hard-coded to the zero time and the omitted
`Password`, `Privacy` and owner fields keep their Go zero values,
whatever the request supplied for them. -/
theorem c9_handle_create_field_whitelist (data : Paste) (r : Nat)
    (now : Int) :
    (handleCreatePaste data r now).expires = 0 ∧
    (handleCreatePaste data r now).password = "" ∧
    (handleCreatePaste data r now).privacy = "" ∧
    (handleCreatePaste data r now).userID = 0 ∧
    (handleCreatePaste data r now).title = data.title ∧
    (handleCreatePaste data r now).body = data.body ∧
    (handleCreatePaste data r now).deleteAfterRead = data.deleteAfterRead ∧
    (handleCreatePaste data r now).syntaxLang = data.syntaxLang ∧
    (handleCreatePaste data r now).created = now ∧
    (handleCreatePaste data r now).id = (r : Int) :=
  ⟨rfl, rfl, rfl, rfl, rfl, rfl, rfl, rfl, rfl, rfl⟩

/-- Claim C10 confirmed: `handleCreate` reseeds the shared generator from
the observed timestamp before drawing, so the drawn id - and hence the
stored id - is a function of that timestamp alone: whatever state the
generator held before either request and whatever the two request bodies
or creation instants are, equal seed timestamps give equal ids. -/
theorem c10_id_depends_only_on_seed_timestamp {S : Type}
    (seedFn : Int → S) (next : S → Nat × S) (pre1 pre2 : S) (ts : Int)
    (data1 data2 : Paste) (now1 now2 : Int) :
    (handleCreatePaste data1 (globalRandDraw seedFn next pre1 ts).1 now1).id =
      (handleCreatePaste data2 (globalRandDraw seedFn next pre2 ts).1 now2).id :=
  rfl

/-- Claim C4 is false on the code: non-matching expressions are accepted
rather than rejected.  The single character `"x"` (byte 120), the empty
expression, and the bare magnitude `"5"` all skip the parsing branch
(sqldb.go:86 requires length > 1) and silently yield the no-expiration
default, and the signed magnitude `"-5m"` is accepted because
`strconv.Atoi` takes a leading sign. -/
theorem c4_nonmatching_inputs_accepted :
    computeExpires [120] sampleCivil = some 0 ∧
    ([120] : List Nat) ≠ neverBytes ∧
    computeExpires [] sampleCivil = some 0 ∧
    computeExpires [53] sampleCivil = some 0 ∧
    (computeExpires [45, 53, 109] sampleCivil).isSome = true :=
  ⟨rfl, by decide, rfl, rfl, by decide⟩

/-- Claim C4 amended: `Create` rejects an expiration expression exactly
when it is at least two bytes long, differs from `"never"`, and either
its magnitude prefix fails `strconv.Atoi` (which allows a leading sign
and demands digits within `int64`) or its final byte is not one of
`m h d w M y`; every expression of length at most one is accepted
silently as no-expiration. -/
theorem c4_format_error_characterization (e : List Nat) (c : Civil) :
    computeExpires e c = none ↔
      e ≠ neverBytes ∧ 1 < e.length ∧
        (goAtoi e.dropLast = none ∨ e.getLastD 0 ∉ unitBytes) := by
  unfold computeExpires
  by_cases h : e ≠ neverBytes ∧ 1 < e.length
  · rw [if_pos h]
    cases ha : goAtoi e.dropLast with
    | none => simp [h]
    | some dur =>
      simp only [unitBytes, List.mem_cons, List.not_mem_nil, or_false]
      by_cases h1 : e.getLast?.getD 0 = 109
      · simp [h1, h]
      · by_cases h2 : e.getLast?.getD 0 = 104
        · simp [h1, h2, h]
        · by_cases h3 : e.getLast?.getD 0 = 100
          · simp [h1, h2, h3, h]
          · by_cases h4 : e.getLast?.getD 0 = 119
            · simp [h1, h2, h3, h4, h]
            · by_cases h5 : e.getLast?.getD 0 = 77
              · simp [h1, h2, h3, h4, h5, h]
              · by_cases h6 : e.getLast?.getD 0 = 121
                · simp [h1, h2, h3, h4, h5, h6, h]
                · simp [h1, h2, h3, h4, h5, h6, h]
  · rw [if_neg h]
    simp only [not_and, not_lt] at h
    constructor
    · intro hc
      exact absurd hc (by simp)
    · intro ⟨hne, hlen, _⟩
      exact absurd (h hne) (by omega)

/-- Claim C5 is false on the code at two regex-valid expressions: `"0m"`
(magnitude zero) makes the computed expiration equal the creation
instant, not strictly later - and being non-zero it also breaks the
"exactly one of expires = never or expires > created" invariant - and
`"153722868m"` (about 292 years in minutes, within `int64` for `Atoi`)
overflows the `time.Duration` multiplication and lands before the
creation instant. -/
theorem c5_zero_and_overflow_magnitudes :
    computeExpires [48, 109] sampleCivil = some sampleCivil.toAbs ∧
    ¬ sampleCivil.toAbs < sampleCivil.toAbs ∧
    sampleCivil.toAbs ≠ 0 ∧
    (computeExpires [49, 53, 51, 55, 50, 50, 56, 54, 56, 109]
      sampleCivil).isSome = true ∧
    (computeExpires [49, 53, 51, 55, 50, 50, 56, 54, 56, 109]
      sampleCivil).getD 0 < sampleCivil.toAbs :=
  ⟨by decide, by decide, by decide, by decide, by decide⟩

/-- Claim C5 amended: `"never"` computes the zero (never) sentinel, and
every expression whose magnitude parses to `1 ≤ dur ≤ 10^6` (a bound
under which no Go arithmetic in the computation can overflow) with one of
the six unit bytes computes an instant strictly after the creation
instant and distinct from the sentinel, for every normalized creation
instant from year 1 on. -/
theorem c5_expiry_after_creation (c : Civil) (hn : c.normalized)
    (hy : 1 ≤ c.year) :
    computeExpires neverBytes c = some 0 ∧
    ∀ (e : List Nat) (dur : Int),
      goAtoi e.dropLast = some dur →
      e.getLastD 0 ∈ unitBytes →
      1 ≤ dur → dur ≤ 1000000 →
      ∃ x, computeExpires e c = some x ∧ c.toAbs < x ∧ x ≠ 0 := by
  have habs : 0 ≤ c.toAbs := Civil.toAbs_nonneg c hn hy
  refine ⟨rfl, ?_⟩
  intro e dur ha hu h1 h2
  have hne : e ≠ neverBytes := fun he => absurd (he ▸ hu) (by decide)
  have hlen : 1 < e.length := by
    rcases e with _ | ⟨a, rest⟩
    · simp [goAtoi] at ha
    · rcases rest with _ | ⟨b, rest2⟩
      · simp [goAtoi] at ha
      · simp
  unfold computeExpires
  rw [if_pos ⟨hne, hlen⟩, ha]
  dsimp only
  simp only [unitBytes, List.mem_cons, List.not_mem_nil, or_false] at hu
  rcases hu with hu | hu | hu | hu | hu | hu
  · have hw : wrapInt64 (dur * nsPerMin) = dur * nsPerMin := by
      unfold wrapInt64 nsPerMin
      omega
    refine ⟨c.toAbs + wrapInt64 (dur * nsPerMin), ?_, ?_, ?_⟩
    · rw [hu]
      norm_num
    · rw [hw]
      unfold nsPerMin
      omega
    · rw [hw]
      unfold nsPerMin
      omega
  · have hw : wrapInt64 (dur * nsPerHour) = dur * nsPerHour := by
      unfold wrapInt64 nsPerHour
      omega
    refine ⟨c.toAbs + wrapInt64 (dur * nsPerHour), ?_, ?_, ?_⟩
    · rw [hu]
      norm_num
    · rw [hw]
      unfold nsPerHour
      omega
    · rw [hw]
      unfold nsPerHour
      omega
  · refine ⟨goAddDate c 0 0 dur, ?_, ?_, ?_⟩
    · rw [hu]
      norm_num
    · rw [goAddDate_days c dur]
      unfold nsPerDay
      omega
    · rw [goAddDate_days c dur]
      unfold nsPerDay
      omega
  · have hw : wrapInt64 (dur * 7) = dur * 7 := by
      unfold wrapInt64
      omega
    refine ⟨goAddDate c 0 0 (wrapInt64 (dur * 7)), ?_, ?_, ?_⟩
    · rw [hu]
      norm_num
    · rw [hw, goAddDate_days c (dur * 7)]
      unfold nsPerDay
      omega
    · rw [hw, goAddDate_days c (dur * 7)]
      unfold nsPerDay
      omega
  · have hm := goAddDate_months c dur (by omega)
    refine ⟨goAddDate c 0 dur 0, ?_, ?_, ?_⟩
    · rw [hu]
      norm_num
    · unfold nsPerDay at hm
      omega
    · unfold nsPerDay at hm
      omega
  · have hm := goAddDate_years c dur (by omega)
    refine ⟨goAddDate c dur 0 0, ?_, ?_, ?_⟩
    · rw [hu]
      norm_num
    · unfold nsPerDay at hm
      omega
    · unfold nsPerDay at hm
      omega

/-- Concrete instantiation of the amended claim C5 theorem: the
expression `"1m"` (bytes 49 109) at the sample instant. -/
theorem c5_expiry_after_creation_witness :
    computeExpires neverBytes sampleCivil = some 0 ∧
    ∃ x, computeExpires [49, 109] sampleCivil = some x ∧
      sampleCivil.toAbs < x ∧ x ≠ 0 :=
  have h := c5_expiry_after_creation sampleCivil (by decide) (by decide)
  ⟨h.1, h.2 [49, 109] 1 (by decide) (by decide) (by decide) (by decide)⟩
